import Mathlib

/-!
A shallow embedding of the shape-library persistence layer
(`src/utils/categoryManager.ts` and `src/utils/shapeSaver.ts` as bundled in
`manage-categories.tsx`): the category store backed by `categories.json`,
the per-category shape files `shapes/<id>.json`, the preview assets under
`assets/<category>/<shapeId>.png`, and the orphan-repair marker file.

Modelling conventions:
- File contents are stored parsed (a `JsonFile` is absent, corrupt, or a
  parsed value); `JSON.parse ∘ JSON.stringify` round-tripping is implicit.
  A concrete serializer `serializeShapes` is provided so that byte-for-byte
  claims about written files can be stated.
- Paths are taken relative to their base directory (`assetsDir` for preview
  files, so a preview file is identified by a string such as `basic/x.png`).
- `localeCompare` on the ASCII names used by this library is modelled as the
  code-point order on `String`.
- Injected file-system failures (`FsFailures`) model `renameSync`,
  `copyFileSync`, `mkdirSync` and marker `writeFileSync` throwing; reads
  failing is modelled by the `corrupt` file state.
- Each operation is a function `... → LibState → Except String α × LibState`:
  the `Except` carries the thrown message, the returned state is the disk
  state at the moment of return or throw.
-/

/-- A record of `categories.json` (interface `CategoryConfig`). -/
structure CategoryConfig where
  id : String
  name : String
deriving Repr, DecidableEq

/-- A shape record in a category file. Field inventory follows the data
model (id, category, name, description, tags, preview, optional nativePptx
and deckSlide); the opaque geometry payload is not modelled. -/
structure Shape where
  id : String
  category : String
  name : String
  description : String
  tags : List String
  preview : String
  nativePptx : Option String
  deckSlide : Option Int
deriving Repr, DecidableEq

instance : Inhabited Shape :=
  ⟨⟨"", "", "", "", [], "", none, none⟩⟩

/-- A JSON file on disk: missing, present but unparseable (or of the wrong
shape), or parsed content. -/
inductive JsonFile (α : Type) where
  | absent
  | corrupt
  | parsed (val : α)
deriving Repr, DecidableEq

/-- The persisted library state under the library root. -/
structure LibState where
  /-- Content of `categories.json`. -/
  categoriesFile : JsonFile (List CategoryConfig)
  /-- Contents of `shapes/<key>.json`, keyed by category id; a key not in the
  association list means the file is absent. -/
  shapeFiles : List (String × JsonFile (List Shape))
  /-- Preview files under `assets/`, as paths relative to the assets dir. -/
  assetFiles : List String
  /-- Per-category directories existing under `assets/`. -/
  assetDirs : List String
  /-- Content of `.preview_repair_done`, `none` when the file is absent. -/
  marker : Option String
deriving Repr, DecidableEq

/-- Injected file-system faults for the best-effort preview operations. -/
structure FsFailures where
  mkdir : Bool := false
  rename : Bool := false
  copy : Bool := false
  markerWrite : Bool := false
deriving Repr, DecidableEq

/-- Constant `DEFAULT_CATEGORIES` of `categoryManager.ts`. -/
def DEFAULT_CATEGORIES : List CategoryConfig :=
  [⟨"basic", "Basic Shapes"⟩, ⟨"arrows", "Proposals"⟩,
   ⟨"flowchart", "Visuals"⟩, ⟨"callouts", "Legal"⟩]

/-- Function `saveCategories`: overwrite `categories.json` (write faults are not
injected for the category store). -/
def saveCategoriesS (categories : List CategoryConfig) (s : LibState) : LibState :=
  { s with categoriesFile := .parsed categories }

/-- Function `loadCategories`: absent file → write defaults and return them; parse
failure (or missing `categories` key) → return defaults without writing. -/
def loadCategoriesS (s : LibState) : List CategoryConfig × LibState :=
  match s.categoriesFile with
  | .absent => (DEFAULT_CATEGORIES, saveCategoriesS DEFAULT_CATEGORIES s)
  | .corrupt => (DEFAULT_CATEGORIES, s)
  | .parsed l => (l, s)

/-- Function `getCategoryIds`. -/
def getCategoryIdsS (s : LibState) : List String × LibState :=
  ((loadCategoriesS s).1.map (fun c => c.id), (loadCategoriesS s).2)

/-- Function `getCategoryDisplayName`: `found?.name || categoryId` is a truthiness
test, so an empty stored name also falls back to the raw id. -/
def getCategoryDisplayName (categoryId : String) (s : LibState) : String × LibState :=
  let (categories, s1) := loadCategoriesS s
  match categories.find? (fun c => c.id == categoryId) with
  | none => (categoryId, s1)
  | some c => (if c.name = "" then categoryId else c.name, s1)

/-- The test `/^[a-z0-9-]+$/.test(id)` of `addCategory`. -/
def isValidSlug (id : String) : Bool :=
  id ≠ "" && id.toList.all (fun c =>
    ('a' ≤ c && c ≤ 'z') || ('0' ≤ c && c ≤ '9') || c = '-')

/-- Look up `shapes/<category>.json` in the state. -/
def lookupShapeFile (s : LibState) (category : String) : JsonFile (List Shape) :=
  match s.shapeFiles.lookup category with
  | none => .absent
  | some f => f

/-- Replace the binding for `k` (or append it) in an association list. -/
def replaceAssoc (k : String) (v : JsonFile (List Shape)) :
    List (String × JsonFile (List Shape)) → List (String × JsonFile (List Shape))
  | [] => [(k, v)]
  | (k2, v2) :: rest =>
    if k2 == k then (k, v) :: rest else (k2, v2) :: replaceAssoc k v rest

/-- Write `shapes/<category>.json`. -/
def setShapeFile (s : LibState) (category : String) (f : JsonFile (List Shape)) : LibState :=
  { s with shapeFiles := replaceAssoc category f s.shapeFiles }

/-- Function `addCategory`: slug validation, duplicate check, append + persist, and
creation of an empty shape file when absent. -/
def addCategory (id name : String) (s : LibState) : Except String Unit × LibState :=
  if !isValidSlug id then
    (.error "Category ID must be lowercase, alphanumeric, with dashes only", s)
  else
    let categories := (loadCategoriesS s).1
    let s1 := (loadCategoriesS s).2
    if categories.any (fun c => c.id == id) then
      (.error ("Category with ID \"" ++ id ++ "\" already exists"), s1)
    else
      let s2 := saveCategoriesS (categories ++ [⟨id, name⟩]) s1
      match lookupShapeFile s2 id with
      | .absent => (.ok (), setShapeFile s2 id (.parsed []))
      | _ => (.ok (), s2)

/-- Function `getShapeCountInCategory`: missing or unreadable file (or a non-array
value) counts as 0, never throws. -/
def getShapeCountInCategory (categoryId : String) (s : LibState) : Nat :=
  match lookupShapeFile s categoryId with
  | .absent => 0
  | .corrupt => 0
  | .parsed l => l.length

/-- The `findIndex` + `categories[index]` + `splice(index, 1)` step of
`deleteCategory`: first record whose id matches, paired with the remaining
list; `none` when no record matches. -/
def removeCategoryById (categoryId : String) :
    List CategoryConfig → Option (CategoryConfig × List CategoryConfig)
  | [] => none
  | c :: rest =>
    if c.id == categoryId then some (c, rest)
    else
      match removeCategoryById categoryId rest with
      | none => none
      | some (f, l) => some (f, c :: l)

/-- Function `deleteCategory`: not-found check, emptiness check with a message naming
the display name and the count, then splice + persist. -/
def deleteCategory (categoryId : String) (s : LibState) : Except String Bool × LibState :=
  let s1 := (loadCategoriesS s).2
  match removeCategoryById categoryId (loadCategoriesS s).1 with
  | none => (.error ("Category \"" ++ categoryId ++ "\" not found"), s1)
  | some (found, remaining) =>
    let shapeCount := getShapeCountInCategory categoryId s1
    if 0 < shapeCount then
      (.error ("Cannot delete category \"" ++ found.name ++ "\" - it contains "
        ++ toString shapeCount ++ " shape(s). Move or delete the shapes first."), s1)
    else
      (.ok true, saveCategoriesS remaining s1)

/-- Returns `true` on `Except.ok`. -/
def resultOk {α : Type} : Except String α → Bool
  | .ok _ => true
  | .error _ => false


/-- Function `loadCategoryShapes` of `shapeSaver.ts`: missing file → `[]`, read or
parse failure → `[]` (caught and logged). -/
def loadCategoryShapesS (category : String) (s : LibState) : List Shape :=
  match lookupShapeFile s category with
  | .absent => []
  | .corrupt => []
  | .parsed l => l

/-- The comparator `(a, b) => a.name.localeCompare(b.name)` as a relation,
with `localeCompare` modelled as code-point order. -/
def shapeNameLe (a b : Shape) : Prop := a.name ≤ b.name

instance : DecidableRel shapeNameLe := fun a b => String.decidableLE a.name b.name

instance : IsTotal Shape shapeNameLe := ⟨fun a b => le_total a.name b.name⟩

instance : IsTrans Shape shapeNameLe := ⟨fun _ _ _ h1 h2 => le_trans h1 h2⟩

/-- Call `shapes.sort((a, b) => a.name.localeCompare(b.name))`: a stable sort by
name, modelled as insertion sort (JS `Array.prototype.sort` is stable). -/
def sortShapes (shapes : List Shape) : List Shape :=
  shapes.insertionSort shapeNameLe

/-- Function `saveCategoryShapes`: sort by name, then write the file pretty-printed
(write faults are not injected for the shape repository). -/
def saveCategoryShapesS (category : String) (shapes : List Shape) (s : LibState) : LibState :=
  setShapeFile s category (.parsed (sortShapes shapes))

/-- Function `shapeExists`. -/
def shapeExists (id : String) (category : String) (s : LibState) : Bool :=
  (loadCategoryShapesS category s).any (fun sh => sh.id == id)

/-- The `findIndex` + replace-or-push step of `addShapeToLibrary`: replace
the first record sharing the id, else append. -/
def replaceOrAppend (shape : Shape) : List Shape → List Shape
  | [] => [shape]
  | sh :: rest =>
    if sh.id == shape.id then shape :: rest else sh :: replaceOrAppend shape rest

/-- Function `addShapeToLibrary`: upsert into the category file of the shape and
return the path of the file written. -/
def addShapeToLibrary (shape : Shape) (s : LibState) : Except String String × LibState :=
  let shapes := loadCategoryShapesS shape.category s
  (.ok ("shapes/" ++ shape.category ++ ".json"),
    saveCategoryShapesS shape.category (replaceOrAppend shape shapes) s)

/-- Type `Partial<ShapeInfo>`: each field optionally present, as in the update
object a caller passes (present fields override on spread). -/
structure ShapeUpdates where
  id : Option String := none
  category : Option String := none
  name : Option String := none
  description : Option String := none
  tags : Option (List String) := none
  preview : Option String := none
  nativePptx : Option (Option String) := none
  deckSlide : Option (Option Int) := none
deriving Repr, DecidableEq

/-- The merge `\x7b ...shapes[index], ...updates, id, category \x7d` of
`updateShapeInLibrary`: spread the update over the original record, then
re-pin `id` and `category` to the call arguments. -/
def applyUpdates (orig : Shape) (u : ShapeUpdates) (id category : String) : Shape :=
  { id := id
    category := category
    name := u.name.getD orig.name
    description := u.description.getD orig.description
    tags := u.tags.getD orig.tags
    preview := u.preview.getD orig.preview
    nativePptx := u.nativePptx.getD orig.nativePptx
    deckSlide := u.deckSlide.getD orig.deckSlide }

/-- The `findIndex` + merge-at-index step of `updateShapeInLibrary`:
`none` when no record has the id. -/
def updateFirstMatch (id category : String) (u : ShapeUpdates) :
    List Shape → Option (List Shape)
  | [] => none
  | sh :: rest =>
    if sh.id == id then some (applyUpdates sh u id category :: rest)
    else
      match updateFirstMatch id category u rest with
      | none => none
      | some l => some (sh :: l)

/-- Function `updateShapeInLibrary`: throws when no record with the id exists in the
category file, otherwise persists the merged record. -/
def updateShapeInLibrary (id category : String) (u : ShapeUpdates) (s : LibState) :
    Except String Unit × LibState :=
  let shapes := loadCategoryShapesS category s
  match updateFirstMatch id category u shapes with
  | none =>
    (.error ("Shape with ID \x27" ++ id ++ "\x27 not found in " ++ category ++ " category"), s)
  | some updated => (.ok (), saveCategoryShapesS category updated s)

/-- Function `removeShapeFromLibrary`: filter out the id; throws when the filter
removed nothing, otherwise persists. -/
def removeShapeFromLibrary (id category : String) (s : LibState) :
    Except String Unit × LibState :=
  let shapes := loadCategoryShapesS category s
  let filteredShapes := shapes.filter (fun sh => sh.id != id)
  if filteredShapes.length = shapes.length then
    (.error ("Shape with ID \x27" ++ id ++ "\x27 not found in " ++ category ++ " category"), s)
  else
    (.ok (), saveCategoryShapesS category filteredShapes s)

/-- Function `getShapeCounts`: count per known category id (zero-filled). -/
def getShapeCounts (s : LibState) : List (String × Nat) × LibState :=
  ((getCategoryIdsS s).1.map
    (fun category => (category, (loadCategoryShapesS category (getCategoryIdsS s).2).length)),
   (getCategoryIdsS s).2)

/-- Function `getTotalShapeCount`. -/
def getTotalShapeCount (s : LibState) : Nat × LibState :=
  (((getShapeCounts s).1.map (fun p => p.2)).foldl (· + ·) 0, (getShapeCounts s).2)

/-- JSON string-literal escaping (quote and backslash; the identifiers and
names this library stores need no further escapes). -/
def jsonEscapeChar (c : Char) : String :=
  if c = '"' then "\\\"" else if c = '\\' then "\\\\" else String.singleton c

/-- A JSON string literal. -/
def jsonString (str : String) : String :=
  "\"" ++ String.join (str.toList.map jsonEscapeChar) ++ "\""

/-- One shape record as `JSON.stringify(_, null, 2)` prints it inside the
array (two-space indent, fields in record order, absent optionals omitted). -/
def serializeShape (sh : Shape) : String :=
  "  \x7b\n    \"id\": " ++ jsonString sh.id
    ++ ",\n    \"category\": " ++ jsonString sh.category
    ++ ",\n    \"name\": " ++ jsonString sh.name
    ++ ",\n    \"description\": " ++ jsonString sh.description
    ++ ",\n    \"tags\": [" ++ String.intercalate ", " (sh.tags.map jsonString) ++ "]"
    ++ ",\n    \"preview\": " ++ jsonString sh.preview
    ++ (match sh.nativePptx with
        | none => ""
        | some p => ",\n    \"nativePptx\": " ++ jsonString p)
    ++ (match sh.deckSlide with
        | none => ""
        | some n => ",\n    \"deckSlide\": " ++ toString n)
    ++ "\n  \x7d"

/-- The bytes `JSON.stringify(sortedShapes, null, 2)` writes for a category
file: deterministic in the record list. -/
def serializeShapes : List Shape → String
  | [] => "[]"
  | l => "[\n" ++ String.intercalate ",\n" (l.map serializeShape) ++ "\n]"

/-- The bytes of `shapes/<category>.json` on disk, when it holds a parsed
record array. -/
def categoryFileBytes (category : String) (s : LibState) : Option String :=
  match lookupShapeFile s category with
  | .parsed l => some (serializeShapes l)
  | _ => none

/-- Create a file at `p` (`renameSync`/`copyFileSync` destination). -/
def insertPath (p : String) (files : List String) : List String :=
  if p ∈ files then files else p :: files

/-- The message a failing `mkdirSync` throws with. -/
def mkdirFailMsg : String := "EACCES: permission denied, mkdir"

/-- Step `if (!existsSync(dir)) mkdirSync(dir, \x7brecursive: true\x7d)`: the call
sits outside every try/catch, so a failure is a throw (`none`). -/
def ensureAssetDir (category : String) (ff : FsFailures) (dirs : List String) :
    Option (List String) :=
  if category ∈ dirs then some dirs
  else if ff.mkdir then none
  else some (category :: dirs)

/-- The guarded move of `movePreviewToCategory`: if the source exists, try
`renameSync`; on failure fall back to `copyFileSync`, which keeps the
source; if that fails too, log and leave the files untouched. -/
def movePreviewFiles (oldPath newPath : String) (ff : FsFailures) (files : List String) :
    List String :=
  if oldPath ∈ files then
    if ff.rename = false then insertPath newPath (files.erase oldPath)
    else if ff.copy = false then insertPath newPath files
    else files
  else files

/-- Function `movePreviewToCategory`: ensure the destination directory (uncaught on
failure), best-effort move, and return the relative path
`<newCategory>/<id>.png` unconditionally. -/
def movePreviewToCategory (shape : Shape) (oldCategory newCategory : String)
    (ff : FsFailures) (s : LibState) : Except String String × LibState :=
  let oldPreviewPath := oldCategory ++ "/" ++ shape.id ++ ".png"
  match ensureAssetDir newCategory ff s.assetDirs with
  | none => (.error mkdirFailMsg, s)
  | some dirs1 =>
    let newPreviewPath := newCategory ++ "/" ++ shape.id ++ ".png"
    let files1 := movePreviewFiles oldPreviewPath newPreviewPath ff s.assetFiles
    (.ok (newCategory ++ "/" ++ shape.id ++ ".png"),
      { s with assetDirs := dirs1, assetFiles := files1 })

/-- The inner search loop of `repairOrphanedPreviews`: scan every category
folder for `<searchCategory>/<id>.png`; on the first hit in a *different*
folder, rename it to the expected location (the declared preview
path), falling back to a copy; `break` on the first successful relocation,
keep searching when both attempts fail. Returns the files and 1 on a
successful relocation, 0 otherwise. -/
def repairSearch (shape : Shape) (category : String) (ff : FsFailures)
    (files : List String) : List String → List String × Nat
  | [] => (files, 0)
  | searchCategory :: rest =>
    let searchPath := searchCategory ++ "/" ++ shape.id ++ ".png"
    if searchPath ∈ files ∧ searchCategory ≠ category then
      if ff.rename = false then (insertPath shape.preview (files.erase searchPath), 1)
      else if ff.copy = false then (insertPath shape.preview files, 1)
      else repairSearch shape category ff files rest
    else repairSearch shape category ff files rest

/-- One shape of the repair scan: nothing to do when the declared preview
resolves, otherwise search all category folders. -/
def repairShape (shape : Shape) (category : String) (categories : List String)
    (ff : FsFailures) (files : List String) : List String × Nat :=
  if shape.preview ∈ files then (files, 0)
  else repairSearch shape category ff files categories

/-- Fold `repairShape` over the records of a category, threading the file set
and summing the repair count. -/
def repairShapes (category : String) (categories : List String) (ff : FsFailures) :
    List Shape → List String → List String × Nat
  | [], files => (files, 0)
  | shape :: rest, files =>
    let (files1, n1) := repairShape shape category categories ff files
    let (files2, n2) := repairShapes category categories ff rest files1
    (files2, n1 + n2)

/-- The outer loop of `repairOrphanedPreviews`: per category, ensure the
asset directory (uncaught on failure, aborting the scan with a throw), then
repair each record; the shape files themselves are only read. -/
def repairCategories (s : LibState) (categories : List String) (ff : FsFailures) :
    List String → List String → List String → Except String Nat × List String × List String
  | [], files, dirs => (.ok 0, files, dirs)
  | category :: rest, files, dirs =>
    match ensureAssetDir category ff dirs with
    | none => (.error mkdirFailMsg, files, dirs)
    | some dirs1 =>
      let shapes := loadCategoryShapesS category s
      let (files1, n1) := repairShapes category categories ff shapes files
      match repairCategories s categories ff rest files1 dirs1 with
      | (.error e, f2, d2) => (.error e, f2, d2)
      | (.ok n2, f2, d2) => (.ok (n1 + n2), f2, d2)

/-- Function `repairOrphanedPreviews(force)`: load the category ids (which may seed
`categories.json`), return 0 at once when the marker exists and `force` is
false, otherwise scan and finally write the marker with the current
timestamp `now` (that write is caught on failure). -/
def repairOrphanedPreviews (force : Bool) (now : String) (ff : FsFailures)
    (s : LibState) : Except String Nat × LibState :=
  let categories := (getCategoryIdsS s).1
  let s0 := (getCategoryIdsS s).2
  if !force && s0.marker.isSome then (.ok 0, s0)
  else
    match repairCategories s0 categories ff categories s0.assetFiles s0.assetDirs with
    | (.error e, f, d) => (.error e, { s0 with assetFiles := f, assetDirs := d })
    | (.ok n, f, d) =>
      let s1 := { s0 with assetFiles := f, assetDirs := d }
      if ff.markerWrite then (.ok n, s1)
      else (.ok n, { s1 with marker := some now })

/-! Helper lemmas. -/

theorem loadCategoriesS_shapeFiles (s : LibState) :
    ((loadCategoriesS s).2).shapeFiles = s.shapeFiles := by
  cases h : s.categoriesFile <;> simp [loadCategoriesS, saveCategoriesS, h]

theorem loadCategoriesS_assetFiles (s : LibState) :
    ((loadCategoriesS s).2).assetFiles = s.assetFiles := by
  cases h : s.categoriesFile <;> simp [loadCategoriesS, saveCategoriesS, h]

theorem loadCategoriesS_assetDirs (s : LibState) :
    ((loadCategoriesS s).2).assetDirs = s.assetDirs := by
  cases h : s.categoriesFile <;> simp [loadCategoriesS, saveCategoriesS, h]

theorem loadCategoriesS_marker (s : LibState) :
    ((loadCategoriesS s).2).marker = s.marker := by
  cases h : s.categoriesFile <;> simp [loadCategoriesS, saveCategoriesS, h]

theorem lookupShapeFile_congr {s1 s2 : LibState} (category : String)
    (h : s1.shapeFiles = s2.shapeFiles) :
    lookupShapeFile s1 category = lookupShapeFile s2 category := by
  simp [lookupShapeFile, h]

theorem lookup_replaceAssoc_self (k : String) (v : JsonFile (List Shape))
    (l : List (String × JsonFile (List Shape))) :
    (replaceAssoc k v l).lookup k = some v := by
  induction l with
  | nil => simp [replaceAssoc, List.lookup]
  | cons p rest ih =>
    obtain ⟨k2, v2⟩ := p
    by_cases h : k2 = k
    · subst h
      simp [replaceAssoc, List.lookup]
    · have h1 : (k2 == k) = false := by simp [h]
      have h2 : (k == k2) = false := by
        simp only [beq_eq_false_iff_ne, ne_eq]
        exact fun hk => h hk.symm
      simp [replaceAssoc, h1, h2, List.lookup, ih]

theorem lookupShapeFile_setShapeFile_self (s : LibState) (category : String)
    (f : JsonFile (List Shape)) :
    lookupShapeFile (setShapeFile s category f) category = f := by
  simp [lookupShapeFile, setShapeFile, lookup_replaceAssoc_self]

/-- The empty library: no files on disk at all. -/
def emptyLib : LibState := ⟨.absent, [], [], [], none⟩

/-- C8: deleteCategory touches only categories.json — the shape files, the
preview files, the asset directories and the repair marker are all left
unchanged, whatever the outcome. -/
theorem deleteCategory_frame (categoryId : String) (s : LibState) :
    (deleteCategory categoryId s).2.shapeFiles = s.shapeFiles ∧
    (deleteCategory categoryId s).2.assetFiles = s.assetFiles ∧
    (deleteCategory categoryId s).2.assetDirs = s.assetDirs ∧
    (deleteCategory categoryId s).2.marker = s.marker := by
  obtain ⟨cf, sf, af, ad, mk⟩ := s
  cases cf <;>
    (simp only [deleteCategory, loadCategoriesS, saveCategoriesS]
     split
     · simp
     · split <;> simp)

/-- C9: when updateShapeInLibrary or removeShapeFromLibrary throws its
not-found error, the whole state — in particular the category shape file —
is exactly as before the call: the existence check precedes any write. -/
theorem shapeOps_error_frame (id category : String) (u : ShapeUpdates) (s : LibState) :
    (resultOk (updateShapeInLibrary id category u s).1 = false →
      (updateShapeInLibrary id category u s).2 = s) ∧
    (resultOk (removeShapeFromLibrary id category s).1 = false →
      (removeShapeFromLibrary id category s).2 = s) := by
  constructor
  · cases hm : updateFirstMatch id category u (loadCategoryShapesS category s) with
    | none => intro _; simp [updateShapeInLibrary, hm]
    | some l =>
      intro h
      exfalso
      simp [updateShapeInLibrary, hm, resultOk] at h
  · by_cases hl : ((loadCategoryShapesS category s).filter (fun sh => sh.id != id)).length
      = (loadCategoryShapesS category s).length
    · intro _; simp [removeShapeFromLibrary, hl]
    · intro h
      exfalso
      simp [removeShapeFromLibrary, hl, resultOk] at h

theorem shapeOps_error_frame_witness :
    (updateShapeInLibrary "x" "basic" {} emptyLib).2 = emptyLib ∧
    (removeShapeFromLibrary "x" "basic" emptyLib).2 = emptyLib :=
  ⟨(shapeOps_error_frame "x" "basic" {} emptyLib).1 (by decide),
   (shapeOps_error_frame "x" "basic" {} emptyLib).2 (by decide)⟩

/-- C10: getCategoryDisplayName falls back to the raw category id both when
no category with that id exists and when the stored display name is the
empty string (truthiness test); otherwise it returns the stored name. -/
theorem getCategoryDisplayName_fallback (categoryId : String) (s : LibState) :
    ((loadCategoriesS s).1.find? (fun c => c.id == categoryId) = none →
      (getCategoryDisplayName categoryId s).1 = categoryId) ∧
    (∀ cc, (loadCategoriesS s).1.find? (fun c => c.id == categoryId) = some cc →
      cc.name = "" → (getCategoryDisplayName categoryId s).1 = categoryId) ∧
    (∀ cc, (loadCategoriesS s).1.find? (fun c => c.id == categoryId) = some cc →
      cc.name ≠ "" → (getCategoryDisplayName categoryId s).1 = cc.name) := by
  obtain ⟨cf, sf, af, ad, mk⟩ := s
  refine ⟨fun h => ?_, fun cc h he => ?_, fun cc h hn => ?_⟩ <;>
    cases cf <;>
      (simp only [loadCategoriesS, saveCategoriesS] at h
       simp [getCategoryDisplayName, loadCategoriesS, saveCategoriesS, h]) <;>
    simp_all

/-- A library whose single category has the empty string as display name. -/
def emptyNameLib : LibState := ⟨.parsed [⟨"ghost", ""⟩], [], [], [], none⟩

theorem getCategoryDisplayName_fallback_witness :
    (getCategoryDisplayName "ghost" emptyNameLib).1 = "ghost" ∧
    (getCategoryDisplayName "nope" emptyNameLib).1 = "nope" :=
  ⟨(getCategoryDisplayName_fallback "ghost" emptyNameLib).2.1 ⟨"ghost", ""⟩
      (by decide) (by decide),
   (getCategoryDisplayName_fallback "nope" emptyNameLib).1 (by decide)⟩

theorem removeCategoryById_none_iff (categoryId : String) (l : List CategoryConfig) :
    removeCategoryById categoryId l = none ↔
      l.any (fun c => c.id == categoryId) = false := by
  induction l with
  | nil => simp [removeCategoryById]
  | cons c rest ih =>
    by_cases h : (c.id == categoryId) = true
    · simp [removeCategoryById, h]
    · have h' : (c.id == categoryId) = false := by simpa using h
      cases hr : removeCategoryById categoryId rest with
      | none => simp [removeCategoryById, h', hr, ih.mp hr]
      | some p =>
        obtain ⟨f, l2⟩ := p
        have hany : rest.any (fun c => c.id == categoryId) = true := by
          cases hany : rest.any (fun c => c.id == categoryId)
          · exact absurd (ih.mpr hany) (by simp [hr])
          · rfl
        simp [removeCategoryById, h', hr, hany]

theorem removeCategoryById_some_find? (categoryId : String) :
    ∀ (l : List CategoryConfig) (f : CategoryConfig) (rest : List CategoryConfig),
    removeCategoryById categoryId l = some (f, rest) →
    l.find? (fun c => c.id == categoryId) = some f := by
  intro l
  induction l with
  | nil => intro f rest h; simp [removeCategoryById] at h
  | cons c tail ih =>
    intro f rest h
    by_cases hc : (c.id == categoryId) = true
    · simp only [removeCategoryById, if_pos hc, Option.some_inj, Prod.mk.injEq] at h
      obtain ⟨rfl, -⟩ := h
      simp [List.find?, hc]
    · have hc' : (c.id == categoryId) = false := by simpa using hc
      simp only [removeCategoryById, hc', Bool.false_eq_true, if_false] at h
      cases hr : removeCategoryById categoryId tail with
      | none => rw [hr] at h; simp at h
      | some p =>
        obtain ⟨f2, l2⟩ := p
        rw [hr] at h
        simp only [Option.some_inj, Prod.mk.injEq] at h
        simp [List.find?, hc', ih f2 l2 hr, h.1]

theorem getShapeCount_loadCategoriesS (categoryId : String) (s : LibState) :
    getShapeCountInCategory categoryId (loadCategoriesS s).2 =
      getShapeCountInCategory categoryId s := by
  unfold getShapeCountInCategory
  rw [lookupShapeFile_congr categoryId (loadCategoriesS_shapeFiles s)]

/-- C1: for a category id present in the store, deleteCategory succeeds
exactly when its shape count is 0; a positive count gives an error naming
the display name of the category and the count; an absent id gives the
not-found error. -/
theorem deleteCategory_spec (categoryId : String) (s : LibState) :
    ((loadCategoriesS s).1.any (fun c => c.id == categoryId) = true →
      ((resultOk (deleteCategory categoryId s).1 = true ↔
          getShapeCountInCategory categoryId s = 0) ∧
        (∀ found, (loadCategoriesS s).1.find? (fun c => c.id == categoryId) = some found →
          0 < getShapeCountInCategory categoryId s →
          (deleteCategory categoryId s).1 = .error ("Cannot delete category \"" ++ found.name
            ++ "\" - it contains " ++ toString (getShapeCountInCategory categoryId s)
            ++ " shape(s). Move or delete the shapes first.")))) ∧
    ((loadCategoriesS s).1.any (fun c => c.id == categoryId) = false →
      (deleteCategory categoryId s).1 =
        .error ("Category \"" ++ categoryId ++ "\" not found")) := by
  cases hrc : removeCategoryById categoryId (loadCategoriesS s).1 with
  | none =>
    refine ⟨fun hmem => ?_, fun habs => ?_⟩
    · rw [(removeCategoryById_none_iff categoryId _).mp hrc] at hmem
      exact absurd hmem (by simp)
    · simp [deleteCategory, hrc]
  | some p =>
    obtain ⟨found, remaining⟩ := p
    refine ⟨fun hmem => ?_, fun habs => ?_⟩
    · constructor
      · by_cases hcnt : 0 < getShapeCountInCategory categoryId s
        · have hcnt' : 0 < getShapeCountInCategory categoryId (loadCategoriesS s).2 := by
            rwa [getShapeCount_loadCategoriesS]
          simp [deleteCategory, hrc, hcnt', resultOk, Nat.pos_iff_ne_zero.mp hcnt]
        · have hz : getShapeCountInCategory categoryId s = 0 := by omega
          have hz' : ¬ 0 < getShapeCountInCategory categoryId (loadCategoriesS s).2 := by
            rw [getShapeCount_loadCategoriesS]; omega
          simp [deleteCategory, hrc, hz', resultOk, hz]
      · intro found2 hfind hcnt
        have := removeCategoryById_some_find? categoryId _ found remaining hrc
        rw [this] at hfind
        obtain rfl : found2 = found := by simpa using hfind.symm
        simp [deleteCategory, hrc, getShapeCount_loadCategoriesS, hcnt]
    · rw [(removeCategoryById_none_iff categoryId _).mpr habs] at hrc
      exact absurd hrc (by simp)

theorem deleteCategory_spec_witness :
    ((resultOk (deleteCategory "basic" emptyLib).1 = true ↔
        getShapeCountInCategory "basic" emptyLib = 0) ∧
      (deleteCategory "nope" emptyLib).1 = .error "Category \"nope\" not found") :=
  ⟨((deleteCategory_spec "basic" emptyLib).1 (by decide)).1,
   (deleteCategory_spec "nope" emptyLib).2 (by decide)⟩

theorem lookupShapeFile_save (l : List CategoryConfig) (s : LibState) (c : String) :
    lookupShapeFile (saveCategoriesS l s) c = lookupShapeFile s c := rfl

theorem lookupShapeFile_loadCategoriesS (c : String) (s : LibState) :
    lookupShapeFile (loadCategoriesS s).2 c = lookupShapeFile s c :=
  lookupShapeFile_congr c (loadCategoriesS_shapeFiles s)

theorem loadCategoriesS_parsed (l : List CategoryConfig) (s : LibState)
    (h : s.categoriesFile = .parsed l) : (loadCategoriesS s).1 = l := by
  simp [loadCategoriesS, h]

/-- C2: addCategory fails exactly when the id fails the slug pattern
`^[a-z0-9-]+$` or already exists; on success the new category is in the
subsequently loaded list, and an empty shape file (JSON `[]`) is created
when none existed. -/
theorem addCategory_spec (id name : String) (s : LibState) :
    (resultOk (addCategory id name s).1 = true ↔
      (isValidSlug id = true ∧
        (loadCategoriesS s).1.any (fun c => c.id == id) = false)) ∧
    (resultOk (addCategory id name s).1 = true →
      ((⟨id, name⟩ : CategoryConfig) ∈ (loadCategoriesS (addCategory id name s).2).1 ∧
        (lookupShapeFile s id = .absent →
          lookupShapeFile (addCategory id name s).2 id = .parsed []))) := by
  by_cases hv : isValidSlug id = true
  case neg =>
    have hv' : isValidSlug id = false := by simpa using hv
    simp [addCategory, hv', resultOk]
  case pos =>
    by_cases hd : (loadCategoriesS s).1.any (fun c => c.id == id) = true
    · simp [addCategory, hv, hd, resultOk]
    · have hd' : (loadCategoriesS s).1.any (fun c => c.id == id) = false := by
        simpa using hd
      have hsfeq : lookupShapeFile
          (saveCategoriesS ((loadCategoriesS s).1 ++ [⟨id, name⟩]) (loadCategoriesS s).2) id
          = lookupShapeFile s id := by
        rw [lookupShapeFile_save, lookupShapeFile_loadCategoriesS]
      cases hsf : lookupShapeFile s id with
      | absent =>
        rw [hsf] at hsfeq
        have hrun : addCategory id name s = (.ok (),
            setShapeFile (saveCategoriesS ((loadCategoriesS s).1 ++ [⟨id, name⟩])
              (loadCategoriesS s).2) id (.parsed [])) := by
          simp only [addCategory, hv, Bool.not_true, Bool.false_eq_true, if_false, hd', hsfeq]
        rw [hrun]
        refine ⟨by simp [resultOk, hv, hd'], fun _ => ⟨?_, fun _ => ?_⟩⟩
        · rw [loadCategoriesS_parsed ((loadCategoriesS s).1 ++ [⟨id, name⟩]) _ rfl]
          simp
        · exact lookupShapeFile_setShapeFile_self _ _ _
      | corrupt =>
        rw [hsf] at hsfeq
        have hrun : addCategory id name s = (.ok (),
            saveCategoriesS ((loadCategoriesS s).1 ++ [⟨id, name⟩]) (loadCategoriesS s).2) := by
          simp only [addCategory, hv, Bool.not_true, Bool.false_eq_true, if_false, hd', hsfeq]
        rw [hrun]
        refine ⟨by simp [resultOk, hv, hd'], fun _ => ⟨?_, fun habs => ?_⟩⟩
        · rw [loadCategoriesS_parsed ((loadCategoriesS s).1 ++ [⟨id, name⟩]) _ rfl]
          simp
        · exact absurd habs (by simp)
      | parsed l =>
        rw [hsf] at hsfeq
        have hrun : addCategory id name s = (.ok (),
            saveCategoriesS ((loadCategoriesS s).1 ++ [⟨id, name⟩]) (loadCategoriesS s).2) := by
          simp only [addCategory, hv, Bool.not_true, Bool.false_eq_true, if_false, hd', hsfeq]
        rw [hrun]
        refine ⟨by simp [resultOk, hv, hd'], fun _ => ⟨?_, fun habs => ?_⟩⟩
        · rw [loadCategoriesS_parsed ((loadCategoriesS s).1 ++ [⟨id, name⟩]) _ rfl]
          simp
        · exact absurd habs (by simp)

theorem addCategory_spec_witness :
    resultOk (addCategory "newcat" "New" emptyLib).1 = true ∧
    (⟨"newcat", "New"⟩ : CategoryConfig) ∈
      (loadCategoriesS (addCategory "newcat" "New" emptyLib).2).1 ∧
    lookupShapeFile (addCategory "newcat" "New" emptyLib).2 "newcat" = .parsed [] :=
  ⟨by decide,
   ((addCategory_spec "newcat" "New" emptyLib).2 (by decide)).1,
   ((addCategory_spec "newcat" "New" emptyLib).2 (by decide)).2 (by decide)⟩

theorem updateFirstMatch_none_iff (id category : String) (u : ShapeUpdates)
    (l : List Shape) :
    updateFirstMatch id category u l = none ↔
      l.any (fun sh => sh.id == id) = false := by
  induction l with
  | nil => simp [updateFirstMatch]
  | cons sh rest ih =>
    by_cases h : (sh.id == id) = true
    · simp [updateFirstMatch, h]
    · have h' : (sh.id == id) = false := by simpa using h
      cases hr : updateFirstMatch id category u rest with
      | none => simp [updateFirstMatch, h', hr, ih.mp hr]
      | some l2 =>
        have hany : rest.any (fun sh => sh.id == id) = true := by
          cases hany : rest.any (fun sh => sh.id == id)
          · exact absurd (ih.mpr hany) (by simp [hr])
          · rfl
        simp [updateFirstMatch, h', hr, hany]

theorem updateFirstMatch_append (id category : String) (u : ShapeUpdates)
    (pre : List Shape) (sh : Shape) (post : List Shape)
    (hpre : pre.any (fun x => x.id == id) = false) (hsh : (sh.id == id) = true) :
    updateFirstMatch id category u (pre ++ sh :: post) =
      some (pre ++ applyUpdates sh u id category :: post) := by
  induction pre with
  | nil => simp [updateFirstMatch, hsh]
  | cons x rest ih =>
    simp only [List.any_cons, Bool.or_eq_false_iff] at hpre
    simp [updateFirstMatch, hpre.1, ih hpre.2]

/-- C3: updateShapeInLibrary fails exactly when no record with the id is in
the category file; on success the merged record that is persisted keeps the
identity fields — its id is the id of the original record and its category
is the addressed category (hence the original category field whenever the
record sits in its own file) — whatever conflicting values the update map
carries. -/
theorem updateShapeInLibrary_identity (id category : String) (u : ShapeUpdates)
    (s : LibState) :
    (resultOk (updateShapeInLibrary id category u s).1 = false ↔
      (loadCategoryShapesS category s).any (fun sh => sh.id == id) = false) ∧
    (∀ pre sh post,
      loadCategoryShapesS category s = pre ++ sh :: post →
      pre.any (fun x => x.id == id) = false →
      sh.id = id →
      (lookupShapeFile (updateShapeInLibrary id category u s).2 category =
        .parsed (sortShapes (pre ++ applyUpdates sh u id category :: post)) ∧
       (applyUpdates sh u id category).id = sh.id ∧
       (applyUpdates sh u id category).category = category ∧
       (sh.category = category →
         (applyUpdates sh u id category).category = sh.category))) := by
  constructor
  · cases hm : updateFirstMatch id category u (loadCategoryShapesS category s) with
    | none =>
      simp [updateShapeInLibrary, hm, resultOk,
        (updateFirstMatch_none_iff id category u _).mp hm]
    | some l =>
      have hany : (loadCategoryShapesS category s).any (fun sh => sh.id == id) = true := by
        cases hany : (loadCategoryShapesS category s).any (fun sh => sh.id == id)
        · exact absurd ((updateFirstMatch_none_iff id category u _).mpr hany) (by simp [hm])
        · rfl
      simp [updateShapeInLibrary, hm, resultOk, hany]
  · intro pre sh post hdec hpre hsh
    have hm := updateFirstMatch_append id category u pre sh post hpre (by simp [hsh])
    rw [← hdec] at hm
    refine ⟨?_, by simp [applyUpdates, hsh], rfl, fun h => by simp [applyUpdates, h]⟩
    have hstate : (updateShapeInLibrary id category u s).2 =
        setShapeFile s category
          (.parsed (sortShapes (pre ++ applyUpdates sh u id category :: post))) := by
      simp [updateShapeInLibrary, hm, saveCategoryShapesS]
    rw [hstate]
    exact lookupShapeFile_setShapeFile_self _ _ _

/-- A one-record shape file used to exercise the update merge. -/
def demoShapeX : Shape := ⟨"x", "a", "Name", "", [], "a/x.png", none, none⟩

/-- A library with a single category `a` holding only `demoShapeX`. -/
def oneShapeLib : LibState :=
  ⟨.parsed [⟨"a", "A"⟩], [("a", .parsed [demoShapeX])], [], [], none⟩

/-- An update map that tries to overwrite both identity fields. -/
def conflictingUpdates : ShapeUpdates :=
  { id := some "evil", category := some "other", name := some "Renamed" }

theorem updateShapeInLibrary_identity_witness :
    lookupShapeFile (updateShapeInLibrary "x" "a" conflictingUpdates oneShapeLib).2 "a" =
      .parsed (sortShapes ([] ++ applyUpdates demoShapeX conflictingUpdates "x" "a" :: [])) ∧
    (applyUpdates demoShapeX conflictingUpdates "x" "a").id = demoShapeX.id ∧
    (applyUpdates demoShapeX conflictingUpdates "x" "a").category = "a" ∧
    (demoShapeX.category = "a" →
      (applyUpdates demoShapeX conflictingUpdates "x" "a").category = demoShapeX.category) :=
  (updateShapeInLibrary_identity "x" "a" conflictingUpdates oneShapeLib).2 [] demoShapeX []
    (by decide) (by decide) (by decide)

theorem ensureAssetDir_ok (c : String) (ff : FsFailures) (dirs : List String)
    (h : ff.mkdir = false) :
    ensureAssetDir c ff dirs = some (if c ∈ dirs then dirs else c :: dirs) := by
  by_cases hdir : c ∈ dirs <;> simp [ensureAssetDir, hdir, h]

theorem movePreviewToCategory_ok (shape : Shape) (oldCategory newCategory : String)
    (ff : FsFailures) (s : LibState) (h : ff.mkdir = false) :
    (movePreviewToCategory shape oldCategory newCategory ff s).1 =
      .ok (newCategory ++ "/" ++ shape.id ++ ".png") := by
  simp [movePreviewToCategory, ensureAssetDir_ok newCategory ff s.assetDirs h]

theorem movePreviewToCategory_files (shape : Shape) (oldCategory newCategory : String)
    (ff : FsFailures) (s : LibState) (h : ff.mkdir = false) :
    (movePreviewToCategory shape oldCategory newCategory ff s).2.assetFiles =
      movePreviewFiles (oldCategory ++ "/" ++ shape.id ++ ".png")
        (newCategory ++ "/" ++ shape.id ++ ".png") ff s.assetFiles := by
  simp [movePreviewToCategory, ensureAssetDir_ok newCategory ff s.assetDirs h]

theorem repairCategories_ok (s : LibState) (cats : List String) (ff : FsFailures)
    (h : ff.mkdir = false) :
    ∀ (todo : List String) (files dirs : List String),
    ∃ n f d, repairCategories s cats ff todo files dirs = (.ok n, f, d) := by
  intro todo
  induction todo with
  | nil => intro files dirs; exact ⟨0, files, dirs, rfl⟩
  | cons c rest ih =>
    intro files dirs
    rcases hrs : repairShapes c cats ff (loadCategoryShapesS c s) files with ⟨files1, n1⟩
    obtain ⟨n2, f2, d2, hrec⟩ := ih files1 (if c ∈ dirs then dirs else c :: dirs)
    refine ⟨n1 + n2, f2, d2, ?_⟩
    simp [repairCategories, ensureAssetDir_ok c ff dirs h, hrs, hrec]

theorem repairOrphanedPreviews_ok (force : Bool) (now : String) (ff : FsFailures)
    (s : LibState) (h : ff.mkdir = false) :
    resultOk (repairOrphanedPreviews force now ff s).1 = true := by
  by_cases hskip : (!force && ((getCategoryIdsS s).2).marker.isSome) = true
  · simp [repairOrphanedPreviews, hskip, resultOk]
  · have hskip' : (!force && ((getCategoryIdsS s).2).marker.isSome) = false := by
      simpa using hskip
    obtain ⟨n, f, d, hrc⟩ := repairCategories_ok (getCategoryIdsS s).2 (getCategoryIdsS s).1
      ff h (getCategoryIdsS s).1 ((getCategoryIdsS s).2).assetFiles
      ((getCategoryIdsS s).2).assetDirs
    by_cases hmw : ff.markerWrite = true <;>
      simp [repairOrphanedPreviews, hskip', hrc, resultOk, hmw]

/-- C5 counterexample: with a failing `mkdirSync` (which sits outside every
try/catch in both functions) and an absent destination directory, both
movePreviewToCategory and repairOrphanedPreviews throw to the caller. -/
theorem previewOps_raise_on_mkdir_failure :
    (movePreviewToCategory demoShapeX "a" "b" ⟨true, false, false, false⟩ emptyLib).1 =
      .error mkdirFailMsg ∧
    (repairOrphanedPreviews true "2024-01-01T00:00:00.000Z" ⟨true, false, false, false⟩
        oneShapeLib).1 = .error mkdirFailMsg :=
  ⟨rfl, rfl⟩

/-- C5 amended: the read, rename, copy and marker-write failures are all
caught — under any combination of those faults both preview operations
return a result rather than throwing — but a directory-creation
(`mkdirSync`) failure is not caught and propagates. -/
theorem previewOps_noRaise_except_mkdir (shape : Shape) (oldCategory newCategory : String)
    (force : Bool) (now : String) (ff : FsFailures) (s : LibState)
    (h : ff.mkdir = false) :
    resultOk (movePreviewToCategory shape oldCategory newCategory ff s).1 = true ∧
    resultOk (repairOrphanedPreviews force now ff s).1 = true := by
  constructor
  · rw [movePreviewToCategory_ok shape oldCategory newCategory ff s h]
    rfl
  · exact repairOrphanedPreviews_ok force now ff s h

theorem previewOps_noRaise_except_mkdir_witness :
    resultOk (movePreviewToCategory demoShapeX "a" "b" ⟨false, true, true, true⟩ emptyLib).1
      = true ∧
    resultOk (repairOrphanedPreviews true "T" ⟨false, true, true, true⟩ emptyLib).1 = true :=
  previewOps_noRaise_except_mkdir demoShapeX "a" "b" true "T"
    ⟨false, true, true, true⟩ emptyLib rfl

theorem mem_insertPath_of_mem {p : String} (q : String) {files : List String}
    (h : p ∈ files) : p ∈ insertPath q files := by
  by_cases hq : q ∈ files <;> simp [insertPath, hq, h]

/-- C7: movePreviewToCategory returns the relative path
`<newCategory>/<id>.png` whether or not a physical move happened, and when
the rename fails and the copy fallback succeeds the source file is left in
place. -/
theorem movePreviewToCategory_returnPath (shape : Shape) (oldCategory newCategory : String)
    (ff : FsFailures) (s : LibState) (h : ff.mkdir = false) :
    (movePreviewToCategory shape oldCategory newCategory ff s).1 =
      .ok (newCategory ++ "/" ++ shape.id ++ ".png") ∧
    (ff.rename = true → ff.copy = false →
      (oldCategory ++ "/" ++ shape.id ++ ".png") ∈ s.assetFiles →
      (oldCategory ++ "/" ++ shape.id ++ ".png") ∈
        (movePreviewToCategory shape oldCategory newCategory ff s).2.assetFiles) := by
  refine ⟨movePreviewToCategory_ok shape oldCategory newCategory ff s h,
    fun hr hc hmem => ?_⟩
  rw [movePreviewToCategory_files shape oldCategory newCategory ff s h]
  simp only [movePreviewFiles, if_pos hmem, hr, hc]
  simp only [Bool.true_eq_false, if_false, if_true]
  exact mem_insertPath_of_mem _ hmem

/-- A library whose only preview file is `a/x.png`, with directory `b`
already present. -/
def movedLib : LibState := ⟨.parsed [], [], ["a/x.png"], ["b"], none⟩

theorem movePreviewToCategory_returnPath_witness :
    (movePreviewToCategory demoShapeX "a" "b" ⟨false, true, false, false⟩ movedLib).1 =
      .ok ("b" ++ "/" ++ demoShapeX.id ++ ".png") ∧
    ("a" ++ "/" ++ demoShapeX.id ++ ".png") ∈
      (movePreviewToCategory demoShapeX "a" "b" ⟨false, true, false, false⟩
        movedLib).2.assetFiles :=
  ⟨(movePreviewToCategory_returnPath demoShapeX "a" "b" ⟨false, true, false, false⟩
      movedLib rfl).1,
   (movePreviewToCategory_returnPath demoShapeX "a" "b" ⟨false, true, false, false⟩
      movedLib rfl).2 rfl rfl (by decide)⟩

theorem loadCategoryShapesS_getCategoryIdsS (c : String) (s : LibState) :
    loadCategoryShapesS c (getCategoryIdsS s).2 = loadCategoryShapesS c s := by
  unfold loadCategoryShapesS
  have h : ((getCategoryIdsS s).2).shapeFiles = s.shapeFiles := loadCategoriesS_shapeFiles s
  rw [lookupShapeFile_congr c h]

theorem repairShapes_all_present (category : String) (cats : List String)
    (ff : FsFailures) :
    ∀ (shapes : List Shape) (files : List String),
    (∀ sh ∈ shapes, sh.preview ∈ files) →
    repairShapes category cats ff shapes files = (files, 0) := by
  intro shapes
  induction shapes with
  | nil => intro files _; rfl
  | cons sh rest ih =>
    intro files hall
    have h1 : repairShape sh category cats ff files = (files, 0) := by
      simp [repairShape, hall sh (by simp)]
    simp [repairShapes, h1, ih files (fun x hx => hall x (by simp [hx]))]

theorem repairCategories_all_present (s : LibState) (cats : List String)
    (ff : FsFailures) (h : ff.mkdir = false) :
    ∀ (todo : List String) (files dirs : List String),
    (∀ c ∈ todo, ∀ sh ∈ loadCategoryShapesS c s, sh.preview ∈ files) →
    ∃ d, repairCategories s cats ff todo files dirs = (.ok 0, files, d) := by
  intro todo
  induction todo with
  | nil => intro files dirs _; exact ⟨dirs, rfl⟩
  | cons c rest ih =>
    intro files dirs hall
    have h1 := repairShapes_all_present c cats ff (loadCategoryShapesS c s) files
      (hall c (by simp))
    obtain ⟨d, hrec⟩ := ih files (if c ∈ dirs then dirs else c :: dirs)
      (fun c2 hc2 sh hsh => hall c2 (by simp [hc2]) sh hsh)
    exact ⟨d, by simp [repairCategories, ensureAssetDir_ok c ff dirs h, h1, hrec]⟩

/-- C6: with the marker present and force false, repairOrphanedPreviews
returns 0 at once and touches neither previews, directories, marker nor
shape files; in every other (non-throwing) case it ends by writing the
marker with the current timestamp — also when 0 repairs were made — and
returns the repair count of the scan; when every declared preview already
resolves the returned count is 0 and the preview files are unchanged. -/
theorem repairOrphanedPreviews_spec (force : Bool) (now : String) (ff : FsFailures)
    (s : LibState) :
    (force = false → s.marker.isSome = true →
      ((repairOrphanedPreviews force now ff s).1 = .ok 0 ∧
       (repairOrphanedPreviews force now ff s).2.assetFiles = s.assetFiles ∧
       (repairOrphanedPreviews force now ff s).2.assetDirs = s.assetDirs ∧
       (repairOrphanedPreviews force now ff s).2.marker = s.marker ∧
       (repairOrphanedPreviews force now ff s).2.shapeFiles = s.shapeFiles)) ∧
    ((force = true ∨ s.marker = none) → ff.mkdir = false → ff.markerWrite = false →
      ((repairOrphanedPreviews force now ff s).2.marker = some now ∧
       (∀ n f d,
         repairCategories (getCategoryIdsS s).2 (getCategoryIdsS s).1 ff
           (getCategoryIdsS s).1 ((getCategoryIdsS s).2).assetFiles
           ((getCategoryIdsS s).2).assetDirs = (.ok n, f, d) →
         (repairOrphanedPreviews force now ff s).1 = .ok n ∧
         (repairOrphanedPreviews force now ff s).2.assetFiles = f))) ∧
    ((force = true ∨ s.marker = none) → ff.mkdir = false →
      (∀ c ∈ (getCategoryIdsS s).1, ∀ sh ∈ loadCategoryShapesS c s,
        sh.preview ∈ s.assetFiles) →
      ((repairOrphanedPreviews force now ff s).1 = .ok 0 ∧
       (repairOrphanedPreviews force now ff s).2.assetFiles = s.assetFiles)) := by
  have hm0 : ((getCategoryIdsS s).2).marker = s.marker := loadCategoriesS_marker s
  have ha0 : ((getCategoryIdsS s).2).assetFiles = s.assetFiles := loadCategoriesS_assetFiles s
  have hd0 : ((getCategoryIdsS s).2).assetDirs = s.assetDirs := loadCategoriesS_assetDirs s
  have hsf0 : ((getCategoryIdsS s).2).shapeFiles = s.shapeFiles := loadCategoriesS_shapeFiles s
  refine ⟨fun hforce hmark => ?_, fun hrun hmk hmw => ?_, fun hrun hmk hall => ?_⟩
  · have hskip : (!force && ((getCategoryIdsS s).2).marker.isSome) = true := by
      rw [hm0]
      simp [hforce, hmark]
    have heq : repairOrphanedPreviews force now ff s = (.ok 0, (getCategoryIdsS s).2) := by
      simp [repairOrphanedPreviews, hskip]
    rw [heq]
    exact ⟨rfl, ha0, hd0, hm0, hsf0⟩
  · have hskip : (!force && ((getCategoryIdsS s).2).marker.isSome) = false := by
      rcases hrun with hf | hm
      · simp [hf]
      · simp [hm0, hm]
    have heq : ∀ n f d,
        repairCategories (getCategoryIdsS s).2 (getCategoryIdsS s).1 ff
          (getCategoryIdsS s).1 ((getCategoryIdsS s).2).assetFiles
          ((getCategoryIdsS s).2).assetDirs = (.ok n, f, d) →
        repairOrphanedPreviews force now ff s =
          (.ok n, { (getCategoryIdsS s).2 with
            assetFiles := f, assetDirs := d, marker := some now }) := by
      intro n f d hrc
      simp [repairOrphanedPreviews, hskip, hrc, hmw]
    obtain ⟨n, f, d, hrc⟩ := repairCategories_ok (getCategoryIdsS s).2 (getCategoryIdsS s).1
      ff hmk (getCategoryIdsS s).1 ((getCategoryIdsS s).2).assetFiles
      ((getCategoryIdsS s).2).assetDirs
    refine ⟨by rw [heq n f d hrc], fun n2 f2 d2 hrc2 => ?_⟩
    rw [heq n2 f2 d2 hrc2]
    exact ⟨rfl, rfl⟩
  · have hskip : (!force && ((getCategoryIdsS s).2).marker.isSome) = false := by
      rcases hrun with hf | hm
      · simp [hf]
      · simp [hm0, hm]
    have hall0 : ∀ c ∈ (getCategoryIdsS s).1,
        ∀ sh ∈ loadCategoryShapesS c (getCategoryIdsS s).2,
        sh.preview ∈ ((getCategoryIdsS s).2).assetFiles := by
      intro c hc sh hsh
      rw [ha0]
      exact hall c hc sh (by rwa [loadCategoryShapesS_getCategoryIdsS] at hsh)
    obtain ⟨d, hrc⟩ := repairCategories_all_present (getCategoryIdsS s).2
      (getCategoryIdsS s).1 ff hmk (getCategoryIdsS s).1
      ((getCategoryIdsS s).2).assetFiles ((getCategoryIdsS s).2).assetDirs hall0
    by_cases hmw : ff.markerWrite = true
    · have heq : repairOrphanedPreviews force now ff s =
          (.ok 0, { (getCategoryIdsS s).2 with
            assetFiles := ((getCategoryIdsS s).2).assetFiles, assetDirs := d }) := by
        simp [repairOrphanedPreviews, hskip, hrc, hmw]
      rw [heq]
      exact ⟨rfl, ha0⟩
    · have hmw' : ff.markerWrite = false := by simpa using hmw
      have heq : repairOrphanedPreviews force now ff s =
          (.ok 0, { (getCategoryIdsS s).2 with
            assetFiles := ((getCategoryIdsS s).2).assetFiles, assetDirs := d,
            marker := some now }) := by
        simp [repairOrphanedPreviews, hskip, hrc, hmw']
      rw [heq]
      exact ⟨rfl, ha0⟩

/-- A library whose repair marker is already present. -/
def markedLib : LibState := ⟨.parsed [⟨"a", "A"⟩], [], [], [], some "2023"⟩

/-- A library with one orphaned preview: the record in `a` declares
`a/x.png` but the file sits at `b/x.png`. -/
def orphanLib : LibState :=
  ⟨.parsed [⟨"a", "A"⟩, ⟨"b", "B"⟩],
   [("a", .parsed [⟨"x", "a", "N", "", [], "a/x.png", none, none⟩]), ("b", .parsed [])],
   ["b/x.png"], ["a", "b"], none⟩

theorem repairOrphanedPreviews_spec_witness :
    ((repairOrphanedPreviews false "T" {} markedLib).1 = .ok 0 ∧
     (repairOrphanedPreviews false "T" {} markedLib).2.assetFiles = markedLib.assetFiles ∧
     (repairOrphanedPreviews false "T" {} markedLib).2.assetDirs = markedLib.assetDirs ∧
     (repairOrphanedPreviews false "T" {} markedLib).2.marker = markedLib.marker ∧
     (repairOrphanedPreviews false "T" {} markedLib).2.shapeFiles = markedLib.shapeFiles) ∧
    (repairOrphanedPreviews true "T" {} orphanLib).2.marker = some "T" :=
  ⟨(repairOrphanedPreviews_spec false "T" {} markedLib).1 rfl rfl,
   ((repairOrphanedPreviews_spec true "T" {} orphanLib).2.1 (Or.inl rfl) rfl rfl).1⟩

theorem mem_replaceOrAppend_self (shape : Shape) (l : List Shape) :
    shape ∈ replaceOrAppend shape l := by
  induction l with
  | nil => simp [replaceOrAppend]
  | cons sh rest ih =>
    by_cases h : (sh.id == shape.id) = true <;> simp [replaceOrAppend, h, ih]

theorem mem_of_mem_replaceOrAppend (shape : Shape) (l : List Shape) :
    ∀ y ∈ replaceOrAppend shape l, y = shape ∨ y ∈ l := by
  induction l with
  | nil => simp [replaceOrAppend]
  | cons sh rest ih =>
    intro y hy
    by_cases h : (sh.id == shape.id) = true
    · simp only [replaceOrAppend, if_pos h, List.mem_cons] at hy
      rcases hy with rfl | hy
      · exact Or.inl rfl
      · exact Or.inr (by simp [hy])
    · simp only [replaceOrAppend, if_neg h, List.mem_cons] at hy
      rcases hy with rfl | hy
      · exact Or.inr (by simp)
      · rcases ih y hy with h1 | h1
        · exact Or.inl h1
        · exact Or.inr (by simp [h1])

theorem replaceOrAppend_ids_nodup (shape : Shape) (l : List Shape)
    (h : (l.map Shape.id).Nodup) : ((replaceOrAppend shape l).map Shape.id).Nodup := by
  induction l with
  | nil => simp [replaceOrAppend]
  | cons sh rest ih =>
    simp only [List.map_cons, List.nodup_cons] at h
    by_cases hid : (sh.id == shape.id) = true
    · have heq : sh.id = shape.id := by simpa using hid
      simp only [replaceOrAppend, if_pos hid, List.map_cons, List.nodup_cons]
      exact ⟨heq ▸ h.1, h.2⟩
    · have hne : sh.id ≠ shape.id := by simpa using hid
      simp only [replaceOrAppend, if_neg hid, List.map_cons, List.nodup_cons]
      refine ⟨fun hmem => ?_, ih h.2⟩
      obtain ⟨y, hy, hyid⟩ := List.mem_map.mp hmem
      rcases mem_of_mem_replaceOrAppend shape rest y hy with rfl | hyl
      · exact hne hyid.symm
      · exact h.1 (hyid ▸ List.mem_map_of_mem Shape.id hyl)

theorem replaceOrAppend_eq_self (shape : Shape) (l : List Shape)
    (hnd : (l.map Shape.id).Nodup) (hmem : shape ∈ l) :
    replaceOrAppend shape l = l := by
  induction l with
  | nil => simp at hmem
  | cons sh rest ih =>
    simp only [List.map_cons, List.nodup_cons] at hnd
    rcases List.mem_cons.mp hmem with rfl | hmem2
    · simp [replaceOrAppend]
    · by_cases h : (sh.id == shape.id) = true
      · exfalso
        have hin : shape.id ∈ rest.map Shape.id := List.mem_map_of_mem Shape.id hmem2
        have heq : sh.id = shape.id := by simpa using h
        exact hnd.1 (heq ▸ hin)
      · simp [replaceOrAppend, h, ih hnd.2 hmem2]

theorem sortShapes_perm (l : List Shape) : List.Perm (sortShapes l) l :=
  List.perm_insertionSort shapeNameLe l

theorem sortShapes_ids_nodup (l : List Shape) (h : (l.map Shape.id).Nodup) :
    ((sortShapes l).map Shape.id).Nodup :=
  (((sortShapes_perm l).map Shape.id).nodup_iff).mpr h

theorem mem_sortShapes (x : Shape) (l : List Shape) (h : x ∈ l) : x ∈ sortShapes l :=
  ((sortShapes_perm l).mem_iff).mpr h

theorem sortShapes_sorted (l : List Shape) : (sortShapes l).Sorted shapeNameLe :=
  List.sorted_insertionSort shapeNameLe l

theorem sortShapes_idem (l : List Shape) : sortShapes (sortShapes l) = sortShapes l :=
  (sortShapes_sorted l).insertionSort_eq

theorem addShapeToLibrary_state (shape : Shape) (t : LibState) :
    (addShapeToLibrary shape t).2 =
      setShapeFile t shape.category
        (.parsed (sortShapes (replaceOrAppend shape (loadCategoryShapesS shape.category t)))) := by
  simp [addShapeToLibrary, saveCategoryShapesS]

/-- C4: on a category file with pairwise distinct record ids, applying
addShapeToLibrary a second time with the identical shape leaves the file
byte-for-byte as it was after the first application: the second run
replaces the record with an equal one and the stable re-sort of an already
sorted array is the identity. -/
theorem addShapeToLibrary_idempotent (shape : Shape) (s : LibState)
    (h : ((loadCategoryShapesS shape.category s).map Shape.id).Nodup) :
    categoryFileBytes shape.category
        (addShapeToLibrary shape (addShapeToLibrary shape s).2).2 =
      categoryFileBytes shape.category (addShapeToLibrary shape s).2 ∧
    categoryFileBytes shape.category (addShapeToLibrary shape s).2 ≠ none := by
  have hs1 := addShapeToLibrary_state shape s
  have hload1 : loadCategoryShapesS shape.category (addShapeToLibrary shape s).2 =
      sortShapes (replaceOrAppend shape (loadCategoryShapesS shape.category s)) := by
    rw [hs1]
    simp [loadCategoryShapesS, lookupShapeFile_setShapeFile_self]
  have hnd1 : ((sortShapes (replaceOrAppend shape
      (loadCategoryShapesS shape.category s))).map Shape.id).Nodup :=
    sortShapes_ids_nodup _ (replaceOrAppend_ids_nodup shape _ h)
  have hmem1 : shape ∈ sortShapes (replaceOrAppend shape
      (loadCategoryShapesS shape.category s)) :=
    mem_sortShapes _ _ (mem_replaceOrAppend_self shape _)
  have hro := replaceOrAppend_eq_self shape _ hnd1 hmem1
  have hs2 : (addShapeToLibrary shape (addShapeToLibrary shape s).2).2 =
      setShapeFile (addShapeToLibrary shape s).2 shape.category
        (.parsed (sortShapes (replaceOrAppend shape
          (loadCategoryShapesS shape.category s)))) := by
    rw [addShapeToLibrary_state shape (addShapeToLibrary shape s).2, hload1, hro,
      sortShapes_idem]
  have hb2 : categoryFileBytes shape.category
      (addShapeToLibrary shape (addShapeToLibrary shape s).2).2 =
      some (serializeShapes (sortShapes (replaceOrAppend shape
        (loadCategoryShapesS shape.category s)))) := by
    rw [hs2]
    simp [categoryFileBytes, lookupShapeFile_setShapeFile_self]
  have hb1 : categoryFileBytes shape.category (addShapeToLibrary shape s).2 =
      some (serializeShapes (sortShapes (replaceOrAppend shape
        (loadCategoryShapesS shape.category s)))) := by
    rw [hs1]
    simp [categoryFileBytes, lookupShapeFile_setShapeFile_self]
  rw [hb1, hb2]
  exact ⟨rfl, by simp⟩

theorem addShapeToLibrary_idempotent_witness :
    categoryFileBytes demoShapeX.category
        (addShapeToLibrary demoShapeX (addShapeToLibrary demoShapeX emptyLib).2).2 =
      categoryFileBytes demoShapeX.category (addShapeToLibrary demoShapeX emptyLib).2 ∧
    categoryFileBytes demoShapeX.category (addShapeToLibrary demoShapeX emptyLib).2 ≠ none :=
  addShapeToLibrary_idempotent demoShapeX emptyLib (by decide)
